import Mathlib

/-!
Verification of the rate-limited dispatch and ephemeral-resource supervisor
of the NetamiTV Discord bot, as a shallow embedding in Lean 4.

The embedding covers:
* `RateLimitManager` from `cogs/normal/embed_handler.py` (sliding-window
  rate-limit ledger with block entries and periodic cleanup);
* `EmbedHandler.safe_send` from the same file (retry loop with exponential
  backoff, 429 handling, non-retryable errors, final grace attempt);
* `TempVoice` from `cogs/special/tempvoice.py` (provisioning cooldown,
  periodic emptiness scan, reclamation of temporary voice channels);
* `TicketConfig.save_config` from `cogs/special/tickets.py` (debounced
  persistent store writes with backup-before-overwrite).

Times are rationals (Python floats), identifiers are naturals, and Python
dictionaries are association lists with unique keys, looked up front-first.
-/

/-! ### Association-list helpers (Python `dict` operations) -/

/-- Lookup in an association list: `d.get(k)` / `k in d`. -/
def lookupA {α : Type} : List (Nat × α) → Nat → Option α
  | [], _ => none
  | p :: rest, k => if p.1 = k then some p.2 else lookupA rest k

/-- Deletion from an association list: `del d[k]`. -/
def eraseA {α : Type} : List (Nat × α) → Nat → List (Nat × α)
  | [], _ => []
  | p :: rest, k => if p.1 = k then eraseA rest k else p :: eraseA rest k

/-- Assignment in an association list: `d[k] = v` (in-place update of an
existing key, append of a fresh one — Python dict insertion order). -/
def insertA {α : Type} : List (Nat × α) → Nat → α → List (Nat × α)
  | [], k, v => [(k, v)]
  | p :: rest, k, v => if p.1 = k then (k, v) :: rest else p :: insertA rest k v

theorem lookupA_eraseA_self {α : Type} (l : List (Nat × α)) (k : Nat) :
    lookupA (eraseA l k) k = none := by
  induction l with
  | nil => rfl
  | cons p rest ih =>
    by_cases h : p.1 = k
    · simpa [eraseA, h] using ih
    · simp [eraseA, lookupA, h, ih]

theorem lookupA_eraseA_ne {α : Type} (l : List (Nat × α)) (k k' : Nat) (h : k' ≠ k) :
    lookupA (eraseA l k) k' = lookupA l k' := by
  induction l with
  | nil => rfl
  | cons p rest ih =>
    by_cases hp : p.1 = k
    · have hp' : p.1 ≠ k' := by rw [hp]; exact Ne.symm h
      simp [eraseA, lookupA, hp, hp', Ne.symm h, ih]
    · by_cases hq : p.1 = k'
      · simp [eraseA, lookupA, hp, hq, h]
      · simp [eraseA, lookupA, hp, hq, ih]

theorem lookupA_eraseA_isSome {α : Type} (l : List (Nat × α)) (k k' : Nat)
    (h : (lookupA (eraseA l k) k').isSome) : (lookupA l k').isSome := by
  by_cases hk : k' = k
  · rw [hk, lookupA_eraseA_self] at h; simp at h
  · rwa [lookupA_eraseA_ne l k k' hk] at h

theorem lookupA_insertA_self {α : Type} (l : List (Nat × α)) (k : Nat) (v : α) :
    lookupA (insertA l k v) k = some v := by
  induction l with
  | nil => simp [insertA, lookupA]
  | cons p rest ih =>
    by_cases h : p.1 = k
    · simp [insertA, lookupA, h]
    · simp [insertA, lookupA, h, ih]

theorem lookupA_insertA_ne {α : Type} (l : List (Nat × α)) (k k' : Nat) (v : α)
    (h : k' ≠ k) : lookupA (insertA l k v) k' = lookupA l k' := by
  induction l with
  | nil => simp [insertA, lookupA, Ne.symm h]
  | cons p rest ih =>
    by_cases hp : p.1 = k
    · simp [insertA, lookupA, hp, Ne.symm h]
    · simp [insertA, lookupA, hp, ih]

/-- Python `int(x)` on a float value: truncation toward zero. -/
def truncQ (x : ℚ) : ℤ :=
  x.num.tdiv x.den

theorem truncQ_pos_frac : truncQ (5/2) = 2 := by norm_num [truncQ]; decide

theorem truncQ_neg_one : truncQ (-1) = -1 := by norm_num [truncQ]

theorem truncQ_neg_frac : truncQ (-1/2) = 0 := by norm_num [truncQ]; decide

theorem truncQ_whole : truncQ 200 = 200 := by norm_num [truncQ]

/-! ### Rate Limit Ledger: `RateLimitManager` (embed_handler.py lines 30-133)

Sliding-window rate limiting per user, per channel, and globally, with
block entries installed when a per-actor limit is hit and purged either by
the periodic cleanup task or lazily on check.
-/

/-- State of `RateLimitManager`: request windows (deques of timestamps)
keyed by user id / channel id, a global window, and the block maps. -/
structure RLState where
  user_requests : List (Nat × List ℚ)
  channel_requests : List (Nat × List ℚ)
  global_requests : List ℚ
  blocked_users : List (Nat × ℚ)
  blocked_channels : List (Nat × ℚ)
deriving DecidableEq

/-- `self.user_limit = 10` (requests per minute). -/
def user_limit : Nat := 10

/-- `self.channel_limit = 30` (requests per minute). -/
def channel_limit : Nat := 30

/-- `self.global_limit = 500` (requests per minute). -/
def global_limit : Nat := 500

/-- `self.block_duration = 300` (5 minutes). -/
def block_duration : ℤ := 300

/-- Append to a `deque(maxlen=n)`: the oldest entries are dropped once the
length exceeds the bound. -/
def dequeAppend (maxlen : Nat) (d : List ℚ) (x : ℚ) : List ℚ :=
  let d' := d ++ [x]
  if maxlen < d'.length then d'.drop (d'.length - maxlen) else d'

/-- `RateLimitManager.add_request`: appends `now` to the user, channel and
global windows (deque maxlens 50, 100, 1000). -/
def add_request (s : RLState) (t : ℚ) (uid cid : Nat) : RLState :=
  { s with
    user_requests :=
      insertA s.user_requests uid (dequeAppend 50 ((lookupA s.user_requests uid).getD []) t),
    channel_requests :=
      insertA s.channel_requests cid (dequeAppend 100 ((lookupA s.channel_requests cid).getD []) t),
    global_requests := dequeAppend 1000 s.global_requests t }

/-- Count-threshold phase of `RateLimitManager.is_rate_limited`
(lines 103-116): user window first, then channel window, then the global
window.  A defaultdict access materialises an empty deque for a missing
key; hitting the user or channel limit installs a block entry stamped
`current_time`; the global limit reports a fixed 60 s cooldown with no
persistent block. -/
def rl_check_counts (s : RLState) (t : ℚ) (uid cid : Nat) :
    RLState × Bool × String × ℤ :=
  let ur := (lookupA s.user_requests uid).getD []
  let s1 : RLState :=
    if (lookupA s.user_requests uid).isSome then s
    else { s with user_requests := s.user_requests ++ [(uid, [])] }
  if user_limit ≤ ur.length then
    ({ s1 with blocked_users := insertA s1.blocked_users uid t },
      true, "user_limit", block_duration)
  else
    let cr := (lookupA s1.channel_requests cid).getD []
    let s2 : RLState :=
      if (lookupA s1.channel_requests cid).isSome then s1
      else { s1 with channel_requests := s1.channel_requests ++ [(cid, [])] }
    if channel_limit ≤ cr.length then
      ({ s2 with blocked_channels := insertA s2.blocked_channels cid t },
        true, "channel_limit", block_duration)
    else if global_limit ≤ s2.global_requests.length then
      (s2, true, "global_limit", 60)
    else
      (s2, false, "", 0)

/-- Channel-block phase of `is_rate_limited` (lines 96-101): an unexpired
channel block reports its remaining seconds; an expired one is deleted and
checking continues with the count thresholds. -/
def rl_check_channel_block (s : RLState) (t : ℚ) (uid cid : Nat) :
    RLState × Bool × String × ℤ :=
  match lookupA s.blocked_channels cid with
  | some bt =>
    let remaining := truncQ (bt + (block_duration : ℚ) - t)
    if 0 < remaining then (s, true, "channel_blocked", remaining)
    else
      rl_check_counts { s with blocked_channels := eraseA s.blocked_channels cid } t uid cid
  | none => rl_check_counts s t uid cid

/-- `RateLimitManager.is_rate_limited` (lines 85-116): user block first,
then channel block, then the count thresholds. -/
def is_rate_limited (s : RLState) (t : ℚ) (uid cid : Nat) :
    RLState × Bool × String × ℤ :=
  match lookupA s.blocked_users uid with
  | some bt =>
    let remaining := truncQ (bt + (block_duration : ℚ) - t)
    if 0 < remaining then (s, true, "user_blocked", remaining)
    else
      rl_check_channel_block { s with blocked_users := eraseA s.blocked_users uid } t uid cid
  | none => rl_check_channel_block s t uid cid

/-- One pass of `RateLimitManager._cleanup_task` (lines 47-83), run every
60 s: drop expired block entries, purge timestamps older than `now - 60`
from every window, and drop actors whose windows become empty. -/
def cleanup_pass (s : RLState) (t : ℚ) : RLState :=
  let cutoff := t - 60
  { user_requests :=
      (s.user_requests.map
        (fun p => (p.1, p.2.dropWhile (fun x => decide (x < cutoff))))).filter
        (fun p => !p.2.isEmpty),
    channel_requests :=
      (s.channel_requests.map
        (fun p => (p.1, p.2.dropWhile (fun x => decide (x < cutoff))))).filter
        (fun p => !p.2.isEmpty),
    global_requests := s.global_requests.dropWhile (fun x => decide (x < cutoff)),
    blocked_users :=
      s.blocked_users.filter (fun p => decide (t - p.2 < (block_duration : ℚ))),
    blocked_channels :=
      s.blocked_channels.filter (fun p => decide (t - p.2 < (block_duration : ℚ))) }

theorem rl_check_counts_blocked_users (s : RLState) (t : ℚ) (uid cid : Nat)
    (h : ((lookupA s.user_requests uid).getD []).length < user_limit) :
    (rl_check_counts s t uid cid).1.blocked_users = s.blocked_users := by
  simp only [rl_check_counts]
  split_ifs <;> first | rfl | omega

theorem rl_check_channel_block_blocked_users (s : RLState) (t : ℚ) (uid cid : Nat)
    (h : ((lookupA s.user_requests uid).getD []).length < user_limit) :
    (rl_check_channel_block s t uid cid).1.blocked_users = s.blocked_users := by
  cases hl : lookupA s.blocked_channels cid with
  | none => simpa [rl_check_channel_block, hl] using rl_check_counts_blocked_users s t uid cid h
  | some bt =>
    simp only [rl_check_channel_block, hl]
    split_ifs with h1
    · rfl
    · exact rl_check_counts_blocked_users _ t uid cid h

theorem rl_check_counts_user_below (s : RLState) (t : ℚ) (uid cid : Nat)
    (hu : ((lookupA s.user_requests uid).getD []).length < user_limit) :
    (rl_check_counts s t uid cid).2 =
      (if channel_limit ≤ ((lookupA s.channel_requests cid).getD []).length then
        (true, "channel_limit", block_duration)
      else if global_limit ≤ s.global_requests.length then (true, "global_limit", 60)
      else (false, "", 0))
    ∧ (rl_check_counts s t uid cid).1.blocked_users = s.blocked_users
    ∧ (rl_check_counts s t uid cid).1.blocked_channels =
        (if channel_limit ≤ ((lookupA s.channel_requests cid).getD []).length then
          insertA s.blocked_channels cid t else s.blocked_channels) := by
  have hnu := Nat.not_le.mpr hu
  refine ⟨?_, ?_, ?_⟩ <;>
    (simp only [rl_check_counts]; split_ifs <;> simp_all)

/-- C1: after exactly `user_limit` recorded attempts in the user's window,
`is_rate_limited` returns `(true, "user_limit", block_duration)` and
installs a block entry for that user; queried `block_duration + 1` seconds
later, after a cleanup pass has purged the window, it returns `(false, ...)`.
Blocks are evaluated before counts — an unexpired user block is reported
first with its remaining seconds, then an unexpired channel block, and an
expired block is cleared on check; count thresholds are checked user before
channel before global, the global limit reporting a fixed 60-second
cooldown and installing no persistent block. -/
theorem C1_is_rate_limited_ledger :
    (∀ (uid cid : Nat) (ur cr gr : List ℚ) (t0 tc : ℚ),
      ur.length = user_limit →
      (∀ x ∈ ur, x < tc - 60) →
      (∀ x ∈ cr, x < tc - 60) →
      (∀ x ∈ gr, x < tc - 60) →
      tc - t0 < (block_duration : ℚ) →
      is_rate_limited ⟨[(uid, ur)], [(cid, cr)], gr, [], []⟩ t0 uid cid
        = (⟨[(uid, ur)], [(cid, cr)], gr, [(uid, t0)], []⟩, true, "user_limit", block_duration)
      ∧ (is_rate_limited
            (cleanup_pass ⟨[(uid, ur)], [(cid, cr)], gr, [(uid, t0)], []⟩ tc)
            (t0 + ((block_duration : ℚ) + 1)) uid cid).2.1 = false)
    ∧
    (∀ (s : RLState) (uid cid : Nat) (t bt : ℚ),
      lookupA s.blocked_users uid = some bt →
      0 < truncQ (bt + (block_duration : ℚ) - t) →
      is_rate_limited s t uid cid
        = (s, true, "user_blocked", truncQ (bt + (block_duration : ℚ) - t)))
    ∧
    (∀ (s : RLState) (uid cid : Nat) (t bt : ℚ),
      lookupA s.blocked_users uid = none →
      lookupA s.blocked_channels cid = some bt →
      0 < truncQ (bt + (block_duration : ℚ) - t) →
      is_rate_limited s t uid cid
        = (s, true, "channel_blocked", truncQ (bt + (block_duration : ℚ) - t)))
    ∧
    (∀ (s : RLState) (uid cid : Nat) (t bt : ℚ),
      lookupA s.blocked_users uid = some bt →
      truncQ (bt + (block_duration : ℚ) - t) ≤ 0 →
      ((lookupA s.user_requests uid).getD []).length < user_limit →
      lookupA (is_rate_limited s t uid cid).1.blocked_users uid = none)
    ∧
    (∀ (s : RLState) (uid cid : Nat) (t : ℚ),
      lookupA s.blocked_users uid = none →
      lookupA s.blocked_channels cid = none →
      ((lookupA s.user_requests uid).getD []).length < user_limit →
      channel_limit ≤ ((lookupA s.channel_requests cid).getD []).length →
      (is_rate_limited s t uid cid).2 = (true, "channel_limit", block_duration)
      ∧ lookupA (is_rate_limited s t uid cid).1.blocked_channels cid = some t)
    ∧
    (∀ (s : RLState) (uid cid : Nat) (t : ℚ),
      lookupA s.blocked_users uid = none →
      lookupA s.blocked_channels cid = none →
      ((lookupA s.user_requests uid).getD []).length < user_limit →
      ((lookupA s.channel_requests cid).getD []).length < channel_limit →
      global_limit ≤ s.global_requests.length →
      (is_rate_limited s t uid cid).2 = (true, "global_limit", 60)
      ∧ (is_rate_limited s t uid cid).1.blocked_users = s.blocked_users
      ∧ (is_rate_limited s t uid cid).1.blocked_channels = s.blocked_channels) := by
  refine ⟨?_, ?_, ?_, ?_, ?_, ?_⟩
  · intro uid cid ur cr gr t0 tc hlen hur hcr hgr htc
    constructor
    · simp [is_rate_limited, rl_check_channel_block, rl_check_counts, lookupA, insertA, hlen]
    · have hclean :
          cleanup_pass ⟨[(uid, ur)], [(cid, cr)], gr, [(uid, t0)], []⟩ tc
            = ⟨[], [], [], [(uid, t0)], []⟩ := by
        simp [cleanup_pass, List.dropWhile_eq_nil_iff, htc]
        exact ⟨hur, hcr, hgr⟩
      rw [hclean]
      have hneg : t0 + (block_duration : ℚ) - (t0 + ((block_duration : ℚ) + 1)) = -1 := by
        ring
      simp [is_rate_limited, rl_check_channel_block, rl_check_counts, lookupA, eraseA,
        hneg, truncQ, user_limit, channel_limit, global_limit]
  · intro s uid cid t bt hb hpos
    simp [is_rate_limited, hb, hpos]
  · intro s uid cid t bt hbu hbc hpos
    simp [is_rate_limited, rl_check_channel_block, hbu, hbc, hpos]
  · intro s uid cid t bt hb hexp hcount
    have hnot : ¬ 0 < truncQ (bt + (block_duration : ℚ) - t) := not_lt.mpr hexp
    simp only [is_rate_limited, hb, if_neg hnot]
    rw [rl_check_channel_block_blocked_users
      ⟨s.user_requests, s.channel_requests, s.global_requests,
        eraseA s.blocked_users uid, s.blocked_channels⟩ t uid cid hcount]
    exact lookupA_eraseA_self s.blocked_users uid
  · intro s uid cid t hbu hbc hucount hccount
    have h := rl_check_counts_user_below s t uid cid hucount
    constructor
    · simp only [is_rate_limited, rl_check_channel_block, hbu, hbc]
      rw [h.1, if_pos hccount]
    · simp only [is_rate_limited, rl_check_channel_block, hbu, hbc]
      rw [h.2.2, if_pos hccount]
      exact lookupA_insertA_self _ cid t
  · intro s uid cid t hbu hbc hucount hccount hglobal
    have h := rl_check_counts_user_below s t uid cid hucount
    have hnc := Nat.not_le.mpr hccount
    refine ⟨?_, ?_, ?_⟩
    · simp only [is_rate_limited, rl_check_channel_block, hbu, hbc]
      rw [h.1, if_neg hnc, if_pos hglobal]
    · simp only [is_rate_limited, rl_check_channel_block, hbu, hbc]
      rw [h.2.1]
    · simp only [is_rate_limited, rl_check_channel_block, hbu, hbc]
      rw [h.2.2, if_neg hnc]

/-- Witness for C1 at concrete inputs: user 1 with exactly 10 recorded
attempts is blocked with `(true, "user_limit", 300)`; after a cleanup pass
at `t = 61` and a re-query at `t = 301` the limit is lifted; block
ordering, expiry-clearing, channel-limit and global-limit branches at
concrete states. -/
theorem C1_is_rate_limited_ledger_witness :
    (is_rate_limited ⟨[(1, List.replicate 10 (0:ℚ))], [(2, [])], [], [], []⟩ 0 1 2
      = (⟨[(1, List.replicate 10 (0:ℚ))], [(2, [])], [], [(1, 0)], []⟩,
          true, "user_limit", block_duration))
    ∧ (is_rate_limited
        (cleanup_pass ⟨[(1, List.replicate 10 (0:ℚ))], [(2, [])], [], [(1, 0)], []⟩ 61)
        (0 + ((block_duration : ℚ) + 1)) 1 2).2.1 = false
    ∧ is_rate_limited ⟨[], [], [], [(3, 0)], []⟩ 100 3 4
        = (⟨[], [], [], [(3, 0)], []⟩, true, "user_blocked",
            truncQ (0 + (block_duration : ℚ) - 100))
    ∧ is_rate_limited ⟨[], [], [], [], [(4, 0)]⟩ 100 3 4
        = (⟨[], [], [], [], [(4, 0)]⟩, true, "channel_blocked",
            truncQ (0 + (block_duration : ℚ) - 100))
    ∧ lookupA (is_rate_limited ⟨[], [], [], [(3, 0)], []⟩ 301 3 4).1.blocked_users 3 = none
    ∧ (is_rate_limited ⟨[], [(4, List.replicate 30 (0:ℚ))], [], [], []⟩ 5 3 4).2
        = (true, "channel_limit", block_duration)
    ∧ lookupA (is_rate_limited ⟨[], [(4, List.replicate 30 (0:ℚ))], [], [], []⟩
        5 3 4).1.blocked_channels 4 = some 5
    ∧ (is_rate_limited ⟨[], [], List.replicate 500 (0:ℚ), [], []⟩ 5 3 4).2
        = (true, "global_limit", 60) := by
  have hA := C1_is_rate_limited_ledger.1 1 2 (List.replicate 10 (0:ℚ)) [] [] 0 61
    (by simp [user_limit])
    (by intro x hx; rw [List.eq_of_mem_replicate hx]; norm_num)
    (by simp) (by simp)
    (by norm_num [block_duration])
  have hC := C1_is_rate_limited_ledger.2.1 ⟨[], [], [], [(3, 0)], []⟩ 3 4 100 0
    (by simp [lookupA])
    (by norm_num [truncQ, block_duration])
  have hD := C1_is_rate_limited_ledger.2.2.1 ⟨[], [], [], [], [(4, 0)]⟩ 3 4 100 0
    (by simp [lookupA]) (by simp [lookupA])
    (by norm_num [truncQ, block_duration])
  have hE := C1_is_rate_limited_ledger.2.2.2.1 ⟨[], [], [], [(3, 0)], []⟩ 3 4 301 0
    (by simp [lookupA])
    (by norm_num [truncQ, block_duration])
    (by simp [lookupA, user_limit])
  have hF := C1_is_rate_limited_ledger.2.2.2.2.1
    ⟨[], [(4, List.replicate 30 (0:ℚ))], [], [], []⟩ 3 4 5
    (by simp [lookupA]) (by simp [lookupA])
    (by simp [lookupA, user_limit])
    (by simp [lookupA, channel_limit])
  have hG := C1_is_rate_limited_ledger.2.2.2.2.2
    ⟨[], [], List.replicate 500 (0:ℚ), [], []⟩ 3 4 5
    (by simp [lookupA]) (by simp [lookupA])
    (by simp [lookupA, user_limit])
    (by simp [lookupA, channel_limit])
    (by show global_limit ≤ (List.replicate 500 (0:ℚ)).length
        rw [List.length_replicate]
        decide)
  exact ⟨hA.1, hA.2, hC, hD, hE, hF.1, hF.2, hG.1⟩

/-! ### Dispatcher: `EmbedHandler.safe_send` (embed_handler.py lines 305-383)

The retry loop is driven by a script of attempt outcomes: element `i` is
what the `i`-th executed `channel.send` call does.
-/

/-- Outcome of one attempted `channel.send(...)` call, as seen by the
`try/except` blocks in `safe_send`. -/
inductive Outcome
  | success
  | http (status : Nat) (retryAfter : Option ℚ)
  | forbidden
  | otherExc
deriving DecidableEq

/-- The exception `safe_send` re-raises to its caller. -/
inductive SendErr
  | httpErr (status : Nat)
  | forbiddenErr
  | otherErr
deriving DecidableEq

/-- Result of a `safe_send` run.  `gaveUpNone` is the `return None` after a
failed final attempt; `noScript` marks the outcome script running out, a
model artifact unreachable when the script is long enough. -/
inductive SendResult
  | sent
  | raised (e : SendErr)
  | gaveUpNone
  | noScript
deriving DecidableEq

/-- Observable trace of a `safe_send` run: the result, how many send
attempts were executed, and the sleeps in order. -/
structure RunOut where
  result : SendResult
  attemptsMade : Nat
  sleeps : List ℚ
deriving DecidableEq

/-- The `retry_settings` block of `EmbedHandler._load_config`. -/
structure SendConfig where
  max_retries : Nat
  initial_delay : ℚ
  max_delay : ℚ
  exponential_base : ℚ
deriving DecidableEq

/-- Default retry settings: `max_retries 5, initial_delay 1, max_delay 60,
exponential_base 2`. -/
def defaultCfg : SendConfig := ⟨5, 1, 60, 2⟩

/-- Backoff advance, line 344: `delay = min(delay * exponential_base, max_delay)`. -/
def nextDelay (delay base cap : ℚ) : ℚ := min (delay * base) cap

/-- The retry loop of `safe_send` (lines 315-383).  Inside the
`while retry_attempts < max_retries` loop: success returns the message;
429 sleeps the `Retry-After` header value (defaulting to the current
delay) and retries, incrementing `retry_attempts`, without touching the
delay; 400/403/404 and unlisted statuses below 500 raise; a 5xx sleeps the
current delay, advances it via `nextDelay`, and retries; `Forbidden`
raises; any other exception retries with backoff while
`retry_attempts < max_retries - 1`, else raises.  After the loop: sleep a
fixed 10 s and make exactly one final attempt, returning `None` on any
exception there. -/
def sendLoop (cfg : SendConfig) : List Outcome → Nat → ℚ → RunOut
  | [], _, _ => ⟨.noScript, 0, []⟩
  | o :: rest, retry_attempts, delay =>
    if retry_attempts < cfg.max_retries then
      match o with
      | .success => ⟨.sent, 1, []⟩
      | .http s ra =>
        if s == 429 then
          let w := ra.getD delay
          let r := sendLoop cfg rest (retry_attempts + 1) delay
          ⟨r.result, r.attemptsMade + 1, w :: r.sleeps⟩
        else if s == 400 || s == 403 || s == 404 then
          ⟨.raised (.httpErr s), 1, []⟩
        else if 500 ≤ s then
          let r := sendLoop cfg rest (retry_attempts + 1)
            (nextDelay delay cfg.exponential_base cfg.max_delay)
          ⟨r.result, r.attemptsMade + 1, delay :: r.sleeps⟩
        else ⟨.raised (.httpErr s), 1, []⟩
      | .forbidden => ⟨.raised .forbiddenErr, 1, []⟩
      | .otherExc =>
        if retry_attempts < cfg.max_retries - 1 then
          let r := sendLoop cfg rest (retry_attempts + 1)
            (nextDelay delay cfg.exponential_base cfg.max_delay)
          ⟨r.result, r.attemptsMade + 1, delay :: r.sleeps⟩
        else ⟨.raised .otherErr, 1, []⟩
    else
      match o with
      | .success => ⟨.sent, 1, [10]⟩
      | _ => ⟨.gaveUpNone, 1, [10]⟩

/-- `EmbedHandler.safe_send` entry: `retry_attempts = 0`,
`delay = initial_delay`. -/
def safe_send (cfg : SendConfig) (outcomes : List Outcome) : RunOut :=
  sendLoop cfg outcomes 0 cfg.initial_delay

/-- The delay sequence produced by starting at `initial_delay = 1` and
advancing with base 2 and cap 60, as `safe_send` does on repeated
transient errors. -/
def delaySeq : Nat → ℚ
  | 0 => 1
  | n + 1 => nextDelay (delaySeq n) 2 60

theorem delaySeq_one_le (n : Nat) : 1 ≤ delaySeq n := by
  induction n with
  | zero => norm_num [delaySeq]
  | succ n ih =>
    simp only [delaySeq, nextDelay]
    refine le_min ?_ (by norm_num)
    nlinarith

theorem delaySeq_le_cap (n : Nat) : delaySeq n ≤ 60 := by
  cases n with
  | zero => norm_num [delaySeq]
  | succ n =>
    simp only [delaySeq, nextDelay]
    exact min_le_right _ _

/-- C2: the backoff policy advances the delay as
`min(current * base, cap)`; for initial delay 1 s, base 2 and cap 60 s the
delay sequence over 8 attempts is exactly 1, 2, 4, 8, 16, 32, 60, 60, and
it is monotonically non-decreasing and never exceeds the cap. -/
theorem C2_backoff_policy :
    (∀ (d b c : ℚ), nextDelay d b c = min (d * b) c)
    ∧ (List.range 8).map delaySeq = [1, 2, 4, 8, 16, 32, 60, 60]
    ∧ (∀ n, delaySeq n ≤ delaySeq (n + 1))
    ∧ (∀ n, delaySeq n ≤ 60) := by
  refine ⟨fun d b c => rfl, ?_, ?_, delaySeq_le_cap⟩
  · norm_num [List.range_succ, delaySeq, nextDelay]
  · intro n
    have h1 := delaySeq_one_le n
    have h2 := delaySeq_le_cap n
    simp only [delaySeq, nextDelay]
    refine le_min (by nlinarith) h2

/-- C3 counterexample: a 429 with a server `Retry-After` of 1 s while the
current backoff delay is 2 s makes `safe_send` wait 1 s, not
`max(1, 2) = 2` — the hint replaces the local delay, it is not combined
with it by `max`. -/
theorem C3_counterexample :
    (sendLoop defaultCfg [Outcome.http 429 (some 1), Outcome.success] 0 2).sleeps = [1]
    ∧ max (1 : ℚ) 2 = 2
    ∧ (1 : ℚ) ≠ 2 := by
  refine ⟨?_, by norm_num, by norm_num⟩
  norm_num [sendLoop, defaultCfg]

/-- C3 amended: on a 429 the wait applied before the retry is the server
hint whenever the `Retry-After` header is present (whatever the current
backoff delay), and the current delay only when the header is absent; a
hint of 45 s at current delay 2 s therefore yields a 45 s wait. -/
theorem C3_retry_after_hint (cfg : SendConfig) (rest : List Outcome) (a : Nat) (d h : ℚ)
    (ha : a < cfg.max_retries) :
    (sendLoop cfg (Outcome.http 429 (some h) :: rest) a d).sleeps.head? = some h
    ∧ (sendLoop cfg (Outcome.http 429 none :: rest) a d).sleeps.head? = some d := by
  constructor <;> simp [sendLoop, ha]

/-- Witness for C3 at the spec's concrete numbers: hint 45 s, current
delay 2 s, wait 45 s. -/
theorem C3_retry_after_hint_witness :
    (sendLoop defaultCfg [Outcome.http 429 (some 45), Outcome.success] 0 2).sleeps.head?
      = some 45 :=
  (C3_retry_after_hint defaultCfg [Outcome.success] 0 2 45 (by decide)).1

/-- C6: a 4xx status other than 429, or a permission failure, raises to
the caller with exactly one attempt executed, no sleeps and no retries. -/
theorem C6_non_retryable_fails_fast (cfg : SendConfig) (rest : List Outcome)
    (s : Nat) (ra : Option ℚ) (a : Nat) (d : ℚ)
    (ha : a < cfg.max_retries) (h4 : 400 ≤ s) (h5 : s < 500) (h429 : s ≠ 429) :
    sendLoop cfg (Outcome.http s ra :: rest) a d
      = ⟨SendResult.raised (SendErr.httpErr s), 1, []⟩
    ∧ sendLoop cfg (Outcome.forbidden :: rest) a d
      = ⟨SendResult.raised SendErr.forbiddenErr, 1, []⟩ := by
  constructor
  · have h1 : (s == 429) = false := by simp [h429]
    by_cases h2 : (s == 400 || s == 403 || s == 404) = true
    · simp [sendLoop, ha, h1, h2]
    · have h3 : ¬ (500 ≤ s) := by omega
      simp [sendLoop, ha, h1, h2, h3]
  · simp [sendLoop, ha]

/-- Witness for C6: a 404 and a `Forbidden` each raise immediately after a
single attempt. -/
theorem C6_non_retryable_fails_fast_witness :
    sendLoop defaultCfg [Outcome.http 404 none, Outcome.success] 0 1
      = ⟨SendResult.raised (SendErr.httpErr 404), 1, []⟩
    ∧ sendLoop defaultCfg [Outcome.forbidden, Outcome.success] 0 1
      = ⟨SendResult.raised SendErr.forbiddenErr, 1, []⟩ :=
  ⟨(C6_non_retryable_fails_fast defaultCfg [Outcome.success] 404 none 0 1
      (by decide) (by decide) (by decide) (by decide)).1,
   (C6_non_retryable_fails_fast defaultCfg [Outcome.success] 404 none 0 1
      (by decide) (by decide) (by decide) (by decide)).2⟩

theorem getLast?_cons_of_ne_nil {α : Type} (a : α) (l : List α) (h : l ≠ []) :
    (a :: l).getLast? = l.getLast? := by
  cases l with
  | nil => exact absurd rfl h
  | cons b l => simp [List.getLast?_cons_cons]

theorem sendLoop_exhaust (cfg : SendConfig) (pre : List Outcome) :
    ∀ (a : Nat) (d : ℚ) (o : Outcome) (rest : List Outcome),
    (∀ x ∈ pre, ∃ st ra, x = Outcome.http st ra ∧ 500 ≤ st) →
    a + pre.length = cfg.max_retries →
    (sendLoop cfg (pre ++ o :: rest) a d).attemptsMade = pre.length + 1
    ∧ (sendLoop cfg (pre ++ o :: rest) a d).sleeps.getLast? = some 10
    ∧ (sendLoop cfg (pre ++ o :: rest) a d).result
        = (if o = Outcome.success then SendResult.sent else SendResult.gaveUpNone) := by
  induction pre with
  | nil =>
    intro a d o rest _ hlen
    have hge : ¬ a < cfg.max_retries := by simp at hlen; omega
    cases o <;> simp [sendLoop, hge]
  | cons x pre ih =>
    intro a d o rest hall hlen
    obtain ⟨st, ra, hx, hst⟩ := hall x (List.mem_cons_self x pre)
    subst hx
    have ha : a < cfg.max_retries := by simp at hlen; omega
    have h429 : (st == 429) = false := by simp; omega
    have h400 : (st == 400 || st == 403 || st == 404) = false := by simp; omega
    have hrec := ih (a + 1) (nextDelay d cfg.exponential_base cfg.max_delay) o rest
      (fun y hy => hall y (List.mem_cons_of_mem _ hy)) (by simp at hlen ⊢; omega)
    have hne : (sendLoop cfg (pre ++ o :: rest) (a + 1)
        (nextDelay d cfg.exponential_base cfg.max_delay)).sleeps ≠ [] := by
      intro hh
      have := hrec.2.1
      rw [hh] at this
      simp at this
    refine ⟨?_, ?_, ?_⟩
    · simp [sendLoop, ha, h429, h400, hst, hrec.1]
    · simp only [List.cons_append, sendLoop, ha, if_true, h429, Bool.false_eq_true,
        if_false, h400, hst, if_pos]
      exact (getLast?_cons_of_ne_nil _ _ hne).trans hrec.2.1
    · simp [sendLoop, ha, h429, h400, hst, hrec.2.2]

theorem sendLoop_no_noScript (cfg : SendConfig) (outcomes : List Outcome) :
    ∀ (a : Nat) (d : ℚ),
    cfg.max_retries - a + 1 ≤ outcomes.length →
    (sendLoop cfg outcomes a d).result ≠ SendResult.noScript := by
  induction outcomes with
  | nil => intro a d h; simp at h
  | cons o rest ih =>
    intro a d h
    by_cases ha : a < cfg.max_retries
    · cases o with
      | success => simp [sendLoop, ha]
      | forbidden => simp [sendLoop, ha]
      | otherExc =>
        by_cases hb : a < cfg.max_retries - 1
        · simp only [sendLoop, ha, if_true, hb]
          apply ih
          simp at h
          omega
        · simp [sendLoop, ha, hb]
      | http st ra =>
        by_cases h429 : (st == 429) = true
        · simp only [sendLoop, ha, if_true, h429]
          apply ih
          simp at h
          omega
        · by_cases h4 : (st == 400 || st == 403 || st == 404) = true
          · simp [sendLoop, ha, h429, h4]
          · by_cases h5 : 500 ≤ st
            · simp only [sendLoop, ha, if_true, h429, Bool.false_eq_true, if_false, h4, h5]
              apply ih
              simp at h
              omega
            · simp [sendLoop, ha, h429, h4, h5]
    · cases o <;> simp [sendLoop, ha]

/-- C7: when the retry budget is exhausted, `safe_send` sleeps the fixed
10 s grace period and makes exactly one more attempt; if that attempt also
fails it returns the `None` failure value to the caller instead of
raising.  Moreover, with a sufficiently long outcome script a dispatch
never falls off the end: it succeeds, raises a non-retryable error, or
terminates with the failure value. -/
theorem C7_exhaustion_final_attempt :
    (∀ (cfg : SendConfig) (pre : List Outcome) (o : Outcome) (rest : List Outcome),
      (∀ x ∈ pre, ∃ st ra, x = Outcome.http st ra ∧ 500 ≤ st) →
      pre.length = cfg.max_retries →
      (safe_send cfg (pre ++ o :: rest)).attemptsMade = cfg.max_retries + 1
      ∧ (safe_send cfg (pre ++ o :: rest)).sleeps.getLast? = some 10
      ∧ (safe_send cfg (pre ++ o :: rest)).result
          = (if o = Outcome.success then SendResult.sent else SendResult.gaveUpNone))
    ∧ (∀ (cfg : SendConfig) (outcomes : List Outcome),
        cfg.max_retries + 1 ≤ outcomes.length →
        (safe_send cfg outcomes).result ≠ SendResult.noScript) := by
  constructor
  · intro cfg pre o rest hall hlen
    have h := sendLoop_exhaust cfg pre 0 cfg.initial_delay o rest hall (by omega)
    rw [hlen] at h
    exact h
  · intro cfg outcomes h
    exact sendLoop_no_noScript cfg outcomes 0 cfg.initial_delay (by omega)

/-- Configuration with a single retry, used for concrete runs below. -/
def cfgOne : SendConfig := ⟨1, 1, 60, 2⟩

/-- Witness for C7: with `max_retries = 1`, a 503 exhausts the budget;
the run then sleeps 10 s, attempts once more, and returns the `None`
failure value when that attempt hits `Forbidden`; and a long-enough script
never runs out. -/
theorem C7_exhaustion_final_attempt_witness :
    (safe_send cfgOne [Outcome.http 503 none, Outcome.forbidden]).attemptsMade
      = cfgOne.max_retries + 1
    ∧ (safe_send cfgOne [Outcome.http 503 none, Outcome.forbidden]).sleeps.getLast? = some 10
    ∧ (safe_send cfgOne [Outcome.http 503 none, Outcome.forbidden]).result
        = (if Outcome.forbidden = Outcome.success then SendResult.sent
           else SendResult.gaveUpNone)
    ∧ (safe_send defaultCfg (List.replicate 6 Outcome.success)).result
        ≠ SendResult.noScript := by
  have h := C7_exhaustion_final_attempt.1 cfgOne [Outcome.http 503 none] Outcome.forbidden []
    (by intro y hy
        refine ⟨503, none, ?_, by omega⟩
        simpa using hy)
    (by decide)
  exact ⟨h.1, h.2.1, h.2.2,
    C7_exhaustion_final_attempt.2 defaultCfg (List.replicate 6 Outcome.success)
      (by simp [defaultCfg])⟩

/-- C8 counterexample: with `max_retries = 1`, a single 429 consumes the
whole retry budget — the following 503 is handled by the final-grace
attempt and the run returns `None`, whereas without the 429 the same tail
is retried and succeeds.  The 429 retry therefore does count against the
retry budget. -/
theorem C8_counterexample :
    (safe_send cfgOne [Outcome.http 429 (some 0), Outcome.http 503 none,
        Outcome.success]).result = SendResult.gaveUpNone
    ∧ (safe_send cfgOne [Outcome.http 503 none, Outcome.success]).result = SendResult.sent
    ∧ SendResult.gaveUpNone ≠ SendResult.sent := by
  refine ⟨?_, ?_, by simp⟩ <;> norm_num [safe_send, sendLoop, cfgOne, nextDelay]

/-- C8 amended: on a 429 the dispatcher sleeps the server `retryAfter`
(or the current delay when the header is absent) and retries with the
backoff delay unchanged, but the attempt increments `retry_attempts` and
so consumes retry budget. -/
theorem C8_rate_limit_retry (cfg : SendConfig) (rest : List Outcome) (ra : Option ℚ)
    (a : Nat) (d : ℚ) (ha : a < cfg.max_retries) :
    sendLoop cfg (Outcome.http 429 ra :: rest) a d
      = ⟨(sendLoop cfg rest (a + 1) d).result,
         (sendLoop cfg rest (a + 1) d).attemptsMade + 1,
         ra.getD d :: (sendLoop cfg rest (a + 1) d).sleeps⟩ := by
  simp [sendLoop, ha]

/-- Witness for C8: a 429 with hint 3 s at delay 1 s sleeps 3 s and
continues at `retry_attempts = 1` with the delay still 1 s. -/
theorem C8_rate_limit_retry_witness :
    sendLoop defaultCfg [Outcome.http 429 (some 3), Outcome.success] 0 1
      = ⟨(sendLoop defaultCfg [Outcome.success] 1 1).result,
         (sendLoop defaultCfg [Outcome.success] 1 1).attemptsMade + 1,
         (some (3:ℚ)).getD 1 :: (sendLoop defaultCfg [Outcome.success] 1 1).sleeps⟩ :=
  C8_rate_limit_retry defaultCfg [Outcome.success] (some 3) 0 1 (by decide)

/-! ### Ephemeral Resource Supervisor: `TempVoice` (tempvoice.py)

Temporary voice channels created when a member joins a setup ("create")
channel, guarded by a 300 s per-owner cooldown, and reclaimed by the
periodic emptiness scan.
-/

/-- Registry state of the `TempVoice` cog: setup channel → category,
temporary channel → owner, owner → last creation time. -/
structure TVState where
  setup_channels : List (Nat × Nat)
  temp_channels : List (Nat × Nat)
  user_cooldowns : List (Nat × ℚ)
deriving DecidableEq

/-- Provisioning path of `TempVoice.on_voice_state_update`
(lines 151-181): a member joining a setup channel either bounces off the
300 s per-owner cooldown — reporting `int(300 - elapsed)` remaining
seconds and creating nothing — or gets a fresh channel registered to them
with their cooldown stamped at the current time.  A missing cooldown entry
reads as 0. -/
def attempt_create (s : TVState) (uid : Nat) (t : ℚ) (newCid : Nat) :
    TVState × Option ℤ :=
  let last := (lookupA s.user_cooldowns uid).getD 0
  if t - last < 300 then
    (s, some (truncQ (300 - (t - last))))
  else
    ({ s with temp_channels := insertA s.temp_channels newCid uid,
              user_cooldowns := insertA s.user_cooldowns uid t }, none)

/-- C4: a provisioning request less than 300 s after the owner's previous
creation is rejected without creating a resource, reporting exactly
`300 - elapsed` truncated to whole seconds; once 300 s have elapsed the
same request succeeds, registers the channel to the owner, and restamps
the cooldown. -/
theorem C4_provisioning_cooldown (s : TVState) (uid : Nat) (t : ℚ) (cid : Nat) (l : ℚ)
    (hl : (lookupA s.user_cooldowns uid).getD 0 = l) :
    (t - l < 300 →
      attempt_create s uid t cid = (s, some (truncQ (300 - (t - l)))))
    ∧ (300 ≤ t - l →
      (attempt_create s uid t cid).2 = none
      ∧ lookupA (attempt_create s uid t cid).1.temp_channels cid = some uid
      ∧ lookupA (attempt_create s uid t cid).1.user_cooldowns uid = some t) := by
  subst hl
  constructor
  · intro h
    simp [attempt_create, h]
  · intro h
    have h' := not_lt.mpr h
    simp [attempt_create, h', lookupA_insertA_self]

/-- Witness for C4 at the spec's scenario: owner 7 created at `t = 0`
(cooldown stamp 0); the attempt at `t = 100` is rejected with
remaining 200; the attempt at `t = 301` succeeds. -/
theorem C4_provisioning_cooldown_witness :
    attempt_create ⟨[], [], [(7, 0)]⟩ 7 100 42
      = (⟨[], [], [(7, 0)]⟩, some (truncQ (300 - (100 - 0))))
    ∧ truncQ (300 - ((100:ℚ) - 0)) = 200
    ∧ (attempt_create ⟨[], [], [(7, 0)]⟩ 7 301 42).2 = none
    ∧ lookupA (attempt_create ⟨[], [], [(7, 0)]⟩ 7 301 42).1.temp_channels 42 = some 7
    ∧ lookupA (attempt_create ⟨[], [], [(7, 0)]⟩ 7 301 42).1.user_cooldowns 7 = some 301 := by
  have h1 := (C4_provisioning_cooldown ⟨[], [], [(7, 0)]⟩ 7 100 42 0
    (by simp [lookupA])).1 (by norm_num)
  have h2 := (C4_provisioning_cooldown ⟨[], [], [(7, 0)]⟩ 7 301 42 0
    (by simp [lookupA])).2 (by norm_num)
  exact ⟨h1, by norm_num [truncQ], h2.1, h2.2.1, h2.2.2⟩

/-- An audit-sink event from `log_temp_channel_deleted`: owner id and
channel id. -/
structure AuditEvent where
  userId : Nat
  channelId : Nat
deriving DecidableEq

/-- One channel's step of `TempVoice.check_empty_channels` (lines 63-79):
setup ("create") channels are skipped; an empty registered temporary
channel is audited with the stored owner id, deleted, and removed from the
registry.  Returns the new registry, the audit events emitted, and whether
the channel was deleted. -/
def reclaim_step (setup temp : List (Nat × Nat)) (cid : Nat) (members : Nat) :
    List (Nat × Nat) × List AuditEvent × Bool :=
  if (lookupA setup cid).isSome then (temp, [], false)
  else if members == 0 && (lookupA temp cid).isSome then
    (eraseA temp cid, [⟨(lookupA temp cid).getD 0, cid⟩], true)
  else (temp, [], false)

/-- A full pass of the 10 s `check_empty_channels` scan over the guild's
voice channels, given as `(channel id, member count)` pairs: folds
`reclaim_step`, collecting audit events and deleted channel ids. -/
def scan_channels (setup : List (Nat × Nat)) :
    List (Nat × Nat) → List (Nat × Nat) →
      List (Nat × Nat) × List AuditEvent × List Nat
  | [], temp => (temp, [], [])
  | (cid, m) :: chans, temp =>
    let r := reclaim_step setup temp cid m
    let rr := scan_channels setup chans r.1
    (rr.1, r.2.1 ++ rr.2.1, (if r.2.2 then [cid] else []) ++ rr.2.2)

/-- C5: reclaiming an id that is no longer in the registry is a no-op —
no deletion, no audit event, registry untouched; a reclaim that does fire
deletes the resource and emits its audit event exactly once, and running
the step again for the same id immediately after is a no-op. -/
theorem C5_reclaim_idempotent :
    (∀ (setup temp : List (Nat × Nat)) (cid m : Nat),
      lookupA temp cid = none →
      reclaim_step setup temp cid m = (temp, [], false))
    ∧ (∀ (setup temp : List (Nat × Nat)) (cid m' u : Nat),
      lookupA setup cid = none →
      lookupA temp cid = some u →
      reclaim_step setup temp cid 0 = (eraseA temp cid, [⟨u, cid⟩], true)
      ∧ reclaim_step setup (eraseA temp cid) cid m' = (eraseA temp cid, [], false)) := by
  constructor
  · intro setup temp cid m h
    by_cases hs : (lookupA setup cid).isSome
    · simp [reclaim_step, hs]
    · simp [reclaim_step, hs, h]
  · intro setup temp cid m' u hs ht
    constructor
    · simp [reclaim_step, hs, ht]
    · have h2 : lookupA (eraseA temp cid) cid = none := lookupA_eraseA_self temp cid
      simp [reclaim_step, hs, h2]

/-- Witness for C5: channel 5 owned by user 7 is reclaimed once with one
audit event; the immediate second run is a no-op, and reclaiming an
unknown id is a no-op. -/
theorem C5_reclaim_idempotent_witness :
    reclaim_step [] [(5, 7)] 5 0 = (eraseA [(5, 7)] 5, [⟨7, 5⟩], true)
    ∧ reclaim_step [] (eraseA [(5, 7)] 5) 5 0 = (eraseA [(5, 7)] 5, [], false)
    ∧ reclaim_step [] [] 9 3 = ([], [], false) := by
  have h := C5_reclaim_idempotent.2 [] [(5, 7)] 5 0 7 (by simp [lookupA]) (by simp [lookupA])
  exact ⟨h.1, h.2, C5_reclaim_idempotent.1 [] [] 9 3 (by simp [lookupA])⟩

/-- C10: the periodic emptiness scan never reclaims a provisioning
trigger channel — a channel id registered as a setup channel is never in
the deleted list and keeps its registry mapping unchanged, however many
occupants it has; and every id the scan deletes was registered in the
temporary-channel registry at the start of the pass. -/
theorem C10_scan_skips_setup_channels :
    (∀ (setup chans : List (Nat × Nat)), ∀ (temp : List (Nat × Nat)) (cid : Nat),
      (lookupA setup cid).isSome →
      cid ∉ (scan_channels setup chans temp).2.2
      ∧ lookupA (scan_channels setup chans temp).1 cid = lookupA temp cid)
    ∧ (∀ (setup chans : List (Nat × Nat)), ∀ (temp : List (Nat × Nat)) (d : Nat),
      d ∈ (scan_channels setup chans temp).2.2 → (lookupA temp d).isSome) := by
  constructor
  · intro setup chans
    induction chans with
    | nil =>
      intro temp cid hs
      simp [scan_channels]
    | cons c chans ih =>
      intro temp cid hs
      obtain ⟨c1, c2⟩ := c
      by_cases hsc : (lookupA setup c1).isSome
      · have h := ih temp cid hs
        simp only [scan_channels, reclaim_step, hsc, if_true]
        simpa using h
      · have hne : cid ≠ c1 := by
          intro hh
          rw [hh] at hs
          exact hsc hs
        by_cases hdel : (c2 == 0 && (lookupA temp c1).isSome) = true
        · have h := ih (eraseA temp c1) cid hs
          simp only [scan_channels, reclaim_step, hsc, Bool.false_eq_true, if_false, hdel, if_true]
          refine ⟨?_, ?_⟩
          · simp only [List.mem_append, List.mem_singleton]
            rintro (hc | hc)
            · exact hne hc
            · exact h.1 hc
          · rw [h.2, lookupA_eraseA_ne temp c1 cid hne]
        · have h := ih temp cid hs
          simp only [scan_channels, reclaim_step, hsc, Bool.false_eq_true, if_false, hdel]
          simpa using h
  · intro setup chans
    induction chans with
    | nil =>
      intro temp d hd
      simp [scan_channels] at hd
    | cons c chans ih =>
      intro temp d hd
      obtain ⟨c1, c2⟩ := c
      by_cases hsc : (lookupA setup c1).isSome
      · simp only [scan_channels, reclaim_step, hsc, if_true] at hd
        simp at hd
        exact ih temp d hd
      · by_cases hdel : (c2 == 0 && (lookupA temp c1).isSome) = true
        · simp only [scan_channels, reclaim_step, hsc, Bool.false_eq_true, if_false, hdel, if_true] at hd
          simp only [List.mem_append, List.mem_singleton] at hd
          rcases hd with hd | hd
          · subst hd
            exact (Bool.and_eq_true_iff.mp hdel).2
          · have := ih (eraseA temp c1) d hd
            exact lookupA_eraseA_isSome temp c1 d this
        · simp only [scan_channels, reclaim_step, hsc, Bool.false_eq_true, if_false, hdel] at hd
          simp at hd
          exact ih temp d hd

/-- Witness for C10: setup channel 1 (empty) is skipped while temporary
channel 2 (empty) is reclaimed; the deleted id 2 was registered. -/
theorem C10_scan_skips_setup_channels_witness :
    (1 ∉ (scan_channels [(1, 100)] [(1, 0), (2, 0)] [(1, 9), (2, 8)]).2.2
      ∧ lookupA (scan_channels [(1, 100)] [(1, 0), (2, 0)] [(1, 9), (2, 8)]).1 1
          = lookupA [(1, 9), (2, 8)] 1)
    ∧ (lookupA [(1, 9), (2, 8)] 2).isSome := by
  refine ⟨C10_scan_skips_setup_channels.1 [(1, 100)] [(1, 0), (2, 0)] [(1, 9), (2, 8)] 1
    (by simp [lookupA]), ?_⟩
  exact C10_scan_skips_setup_channels.2 [(1, 100)] [(1, 0), (2, 0)] [(1, 9), (2, 8)] 2
    (by decide)

/-! ### Persistent store: `TicketConfig.save_config` (tickets.py lines 86-108)

Debounced JSON config writes with a backup-before-overwrite policy.
-/

/-- The config file and its `.bak` sibling, by content. -/
structure FileState where
  file : Option String
  bak : Option String
deriving DecidableEq

/-- `TicketConfig` persistence state: `_last_save` and the file system. -/
structure TicketStore where
  last_save : ℚ
  fs : FileState
deriving DecidableEq

/-- `TicketConfig.save_config` (lines 86-108): a call less than one second
after `_last_save` returns `False` and writes nothing; otherwise the
existing config file, if any, is first copied aside to `.bak`, the new
content is written, `_last_save` is stamped with the current time, and
`True` is returned. -/
def save_config (st : TicketStore) (t : ℚ) (content : String) : TicketStore × Bool :=
  if t - st.last_save < 1 then (st, false)
  else
    ({ last_save := t,
       fs := { file := some content,
               bak := match st.fs.file with
                      | some old => some old
                      | none => st.fs.bak } }, true)

/-- C9 counterexample: two `save_config` calls 0.7 s apart where the
second call writes and returns `True`.  The debounce compares against
`_last_save`, the time of the last successful write, not against the
previous call: the rejected call at `t = 0.5` leaves `_last_save = 0`, so
the call at `t = 1.2` is more than a second past the last write and goes
through. -/
theorem C9_counterexample :
    (save_config ⟨0, ⟨some "c0", none⟩⟩ (1/2) "a").2 = false
    ∧ (save_config (save_config ⟨0, ⟨some "c0", none⟩⟩ (1/2) "a").1 (6/5) "b").2 = true
    ∧ ((6:ℚ)/5 - 1/2 < 1) := by
  refine ⟨?_, ?_, by norm_num⟩ <;> norm_num [save_config]

/-- C9 amended: after a call that actually writes, any `save_config` call
within one second returns `False` and leaves the store untouched; and
every writing call, when a previous file exists, copies its content aside
to the backup before overwriting. -/
theorem C9_save_debounce (st : TicketStore) (t t' : ℚ) (c c' : String)
    (hw : (save_config st t c).2 = true) (hlt : t' - t < 1) :
    save_config (save_config st t c).1 t' c' = ((save_config st t c).1, false)
    ∧ (∀ old, st.fs.file = some old →
        (save_config st t c).1.fs = ⟨some c, some old⟩) := by
  by_cases h : t - st.last_save < 1
  · simp [save_config, h] at hw
  · constructor
    · simp [save_config, h, hlt]
    · intro old hold
      simp [save_config, h, hold]

/-- Witness for C9: a write at `t = 0` (previous content backed up), then
a call at `t = 0.5` that is rejected and changes nothing. -/
theorem C9_save_debounce_witness :
    save_config (save_config ⟨-5, ⟨some "c0", none⟩⟩ 0 "a").1 (1/2) "b"
      = ((save_config ⟨-5, ⟨some "c0", none⟩⟩ 0 "a").1, false)
    ∧ (save_config ⟨-5, ⟨some "c0", none⟩⟩ 0 "a").1.fs = ⟨some "a", some "c0"⟩ := by
  have h := C9_save_debounce ⟨-5, ⟨some "c0", none⟩⟩ 0 (1/2) "a" "b"
    (by norm_num [save_config]) (by norm_num)
  exact ⟨h.1, h.2 "c0" rfl⟩
